import Mathlib

/-!
Verification of the hudu-mcp response-size governor and tool-routing layer.

The definitions below are shallow embeddings of the TypeScript sources:
* `JValue`, `serVal`/`serArr`/`serObj`, `jsonStringify` model the JSON data
  flowing through the server and `JSON.stringify(data, null, 2)`.
* `truncateDataRecursively`, `truncateResponse`, `createMcpResponse` model
  the response-utils module (response truncation).
* `normalizePaginationParams` models the pagination clamp of the HUDU client.
* `handleGetCompanies`, `handleGetAssetPasswords`, `maskRecord` model the
  relevant tool handlers.
JS machine floats only appear as the truncation budget `3_000_000 * 0.8`
and its repeated division by ten; these values are represented exactly in
`ℚ`, which yields the same comparison outcomes against the integer string
lengths the code compares them with.
-/

/-- JSON values as produced and consumed by the server (the `any` payloads).
Mapping entries keep insertion order, as JS objects do. -/
inductive JValue where
  | jnull
  | jbool (b : Bool)
  | jnum (n : Int)
  | jstr (s : String)
  | jarr (items : List JValue)
  | jobj (entries : List (String × JValue))

/-- Two-space indentation prefix used by `JSON.stringify(_, null, 2)` at a
given nesting level. -/
def indentStr (lvl : Nat) : String := String.mk (List.replicate (2 * lvl) ' ')

/-- Hex digit for string escapes. -/
def hexDigit (n : Nat) : Char :=
  if n < 10 then Char.ofNat (48 + n) else Char.ofNat (87 + n)

/-- JSON escape of one character, as in ECMAScript QuoteJSONString. -/
def escapeChar (c : Char) : String :=
  if c = Char.ofNat 34 then String.mk [Char.ofNat 92, Char.ofNat 34]
  else if c = Char.ofNat 92 then String.mk [Char.ofNat 92, Char.ofNat 92]
  else if c = Char.ofNat 10 then String.mk [Char.ofNat 92, 'n']
  else if c = Char.ofNat 13 then String.mk [Char.ofNat 92, 'r']
  else if c = Char.ofNat 9 then String.mk [Char.ofNat 92, 't']
  else if c = Char.ofNat 8 then String.mk [Char.ofNat 92, 'b']
  else if c = Char.ofNat 12 then String.mk [Char.ofNat 92, 'f']
  else if c.toNat < 32 then
    String.mk [Char.ofNat 92, 'u', '0', '0', hexDigit (c.toNat / 16), hexDigit (c.toNat % 16)]
  else String.mk [c]

/-- Escape a character list into the body of a JSON string literal. -/
def escString : List Char → String
  | [] => ("")
  | c :: cs => escapeChar c ++ escString cs

/-- JSON string literal (quotes plus escaped body). -/
def quoteJson (s : String) : String :=
  String.mk [Char.ofNat 34] ++ escString s.data ++ String.mk [Char.ofNat 34]

mutual

/-- Embedding of `JSON.stringify(v, null, 2)` at nesting level `lvl`. -/
def serVal : JValue → Nat → String
  | .jnull, _ => ("null")
  | .jbool true, _ => ("true")
  | .jbool false, _ => ("false")
  | .jnum n, _ => toString n
  | .jstr s, _ => quoteJson s
  | .jarr [], _ => ("[]")
  | .jarr (x :: xs), lvl =>
      ("[\n") ++ serArr (x :: xs) (lvl + 1) ++ ("\n") ++ indentStr lvl ++ ("]")
  | .jobj [], _ => ("\x7b\x7d")
  | .jobj (e :: es), lvl =>
      ("\x7b\n") ++ serObj (e :: es) (lvl + 1) ++ ("\n") ++ indentStr lvl ++ ("\x7d")

/-- Serialize the elements of a non-empty array, one per line. -/
def serArr : List JValue → Nat → String
  | [], _ => ("")
  | x :: xs, lvl =>
      indentStr lvl ++ serVal x lvl ++ (if xs.isEmpty then ("") else (",\n")) ++ serArr xs lvl

/-- Serialize the entries of a non-empty object, one per line. -/
def serObj : List (String × JValue) → Nat → String
  | [], _ => ("")
  | (k, v) :: es, lvl =>
      indentStr lvl ++ quoteJson k ++ (": ") ++ serVal v lvl
        ++ (if es.isEmpty then ("") else (",\n")) ++ serObj es lvl

end

/-- Top-level `JSON.stringify(v, null, 2)`. -/
def jsonStringify (v : JValue) : String := serVal v 0

/-- Serialized length of a value, as the rational the JS float comparisons
see. -/
def lenQ (v : JValue) : ℚ := ((jsonStringify v).length : ℚ)

/-- Maximum response size in characters (`MAX_RESPONSE_SIZE` in the
response-utils module). -/
def MAX_RESPONSE_SIZE : Nat := 3000000

/-- The synthetic element a truncated array ends with
(`truncatedArray.push({...})` in `truncateDataRecursively`). -/
def arrMarker (i total : Nat) : JValue :=
  .jobj [(("_truncated"), .jbool true),
         (("_message"), .jstr (("Array truncated at index ") ++ Nat.repr i
            ++ (". Original length: ") ++ Nat.repr total
            ++ (", showing first ") ++ Nat.repr i ++ (" items."))),
         (("_remaining_items"), .jnum ((total : Int) - (i : Int)))]

/-- Message attached to a truncated object. -/
def objTruncMsg : String :=
  ("Object truncated. Some properties were omitted due to size limits.")

/-- JS property assignment `obj[k] = v` on an ordered entry list: an existing
key keeps its position and is overwritten, a new key is appended. -/
def setKey (l : List (String × JValue)) (k : String) (v : JValue) :
    List (String × JValue) :=
  if l.any (fun p => p.1 = k) then
    l.map (fun p => if p.1 = k then (k, v) else p)
  else l ++ [(k, v)]

/-- Suffix appended to over-long string fields of objects. -/
def truncSuffix : String := ("... [truncated]")

/-- JS `s.substring(0, n)` (we only embed ASCII payloads, where UTF-16 units
and characters coincide). -/
def jsSubstring (s : String) (n : Nat) : String := String.mk (s.data.take n)

mutual

/-- Function `truncateDataRecursively` from the response-utils module. Scalars pass
through, arrays and objects are budget-bounded. -/
def truncateDataRecursively : JValue → ℚ → JValue
  | .jarr l, m => .jarr (truncArr l 0 l.length 0 m)
  | .jobj l, m =>
      let r := truncObj l 0 m
      if r.2 then
        .jobj (setKey (setKey r.1 ("_truncated") (.jbool true)) ("_message") (.jstr objTruncMsg))
      else .jobj r.1
  | v, _ => v

/-- The array loop of `truncateDataRecursively`: `i` is the current index,
`total` the original length, `cur` the accumulated serialized size. -/
def truncArr : List JValue → Nat → Nat → ℚ → ℚ → List JValue
  | [], _, _, _, _ => []
  | item :: rest, i, total, cur, m =>
      if cur + lenQ item > m then [arrMarker i total]
      else
        truncateDataRecursively item (m / 10)
          :: truncArr rest (i + 1) total (cur + lenQ item) m

/-- The object loop of `truncateDataRecursively`: returns the transformed
retained entries and whether the loop broke early (adding the markers). -/
def truncObj : List (String × JValue) → ℚ → ℚ → List (String × JValue) × Bool
  | [], _, _ => ([], false)
  | (k, v) :: rest, cur, m =>
      if cur + lenQ v > m then ([], true)
      else
        let v' := match v with
          | .jstr s =>
              if s.length > 10000 then .jstr (jsSubstring s 10000 ++ truncSuffix)
              else truncateDataRecursively (.jstr s) (m / 10)
          | w => truncateDataRecursively w (m / 10)
        let r := truncObj rest (cur + lenQ v) m
        ((k, v') :: r.1, r.2)

end

/-- JS object-literal spread `{...v}`: objects contribute their entries,
arrays and strings contribute index-keyed entries, primitives contribute
nothing. -/
def jsSpread (v : JValue) : List (String × JValue) :=
  match v with
  | .jobj l => l
  | .jarr l => l.enum.map (fun p => (Nat.repr p.1, p.2))
  | .jstr s => s.data.enum.map (fun p => (Nat.repr p.1, .jstr (String.mk [p.2])))
  | _ => []

/-- The `_truncation_info` object attached by `truncateResponse`. -/
def truncationInfo (originalSize truncatedSize : Nat) : JValue :=
  .jobj [(("truncated"), .jbool true),
         (("original_size_chars"), .jnum (originalSize : Int)),
         (("truncated_size_chars"), .jnum (truncatedSize : Int)),
         (("message"), .jstr ("Response was truncated due to size limits. Use pagination parameters to get smaller chunks of data."))]

/-- Result record of `truncateResponse`. -/
structure TruncateResult where
  data : JValue
  truncated : Bool
  originalSize : Nat

/-- Function `truncateResponse` from the response-utils module. -/
def truncateResponse (data : JValue) : TruncateResult :=
  let jsonString := jsonStringify data
  let originalSize := jsonString.length
  if originalSize ≤ MAX_RESPONSE_SIZE then
    { data := data, truncated := false, originalSize := originalSize }
  else
    let truncatedData := truncateDataRecursively data ((MAX_RESPONSE_SIZE : ℚ) * 8 / 10)
    { data := .jobj (setKey (jsSpread truncatedData) ("_truncation_info")
        (truncationInfo originalSize (jsonStringify truncatedData).length)),
      truncated := true,
      originalSize := originalSize }

/-- One content block of an MCP tool reply. -/
structure McpContent where
  type : String
  text : String

/-- An MCP tool reply. -/
structure McpResponse where
  content : List McpContent

/-- Function `createMcpResponse` from the response-utils module. The JS function
computes `response.content[0].text = JSON.stringify(responseData, null, 2)`
first; the later conditional assignment
`responseData.summary = summary + truncationWarning` mutates an object that
is no longer reachable from `response`, so the returned reply is always the
serialization of the unmutated data. -/
def createMcpResponse (data : JValue) (_summary : Option String) : McpResponse :=
  let r := truncateResponse data
  { content := [{ type := ("text"), text := jsonStringify r.data }] }

/-- JS `Math.round(q)` (round half toward positive infinity). -/
def jsRound (q : ℚ) : Int := ⌊q + 1/2⌋

/-- The bracketed warning `createMcpResponse` builds when truncation fired
and a summary was supplied. -/
def truncationWarning (originalSize : Nat) : String :=
  (" [Response truncated from ") ++ toString (jsRound ((originalSize : ℚ) / 1000))
    ++ ("KB due to size limits]")

/-- Lookup of a key in a mapping value (first occurrence). -/
def objLookup (v : JValue) (k : String) : Option JValue :=
  match v with
  | .jobj l => (l.find? (fun p => p.1 = k)).map (fun p => p.2)
  | _ => none

/-- The result of JS `Number(x)` on an arbitrary value: a finite double
(represented exactly), `NaN`, or an infinity. -/
inductive JSNum where
  | fin (q : ℚ)
  | nan
  | inf
  | ninf
deriving DecidableEq

/-- JS `x || d` for a numeric `x` and a positive literal default `d`
(`0` and `NaN` are falsy). -/
def jsOrDefault (x : JSNum) (d : ℚ) : JSNum :=
  match x with
  | .fin q => if q = 0 then .fin d else .fin q
  | .nan => .fin d
  | y => y

/-- JS `Math.floor`. -/
def jsFloor : JSNum → JSNum
  | .fin q => .fin ((⌊q⌋ : Int) : ℚ)
  | y => y

/-- JS `Math.max(a, x)` for a finite literal `a`. -/
def jsMax (a : ℚ) : JSNum → JSNum
  | .fin q => .fin (max a q)
  | .nan => .nan
  | .inf => .inf
  | .ninf => .fin a

/-- JS `Math.min(a, x)` for a finite literal `a`. -/
def jsMin (a : ℚ) : JSNum → JSNum
  | .fin q => .fin (min a q)
  | .nan => .nan
  | .inf => .fin a
  | .ninf => .ninf

/-- The `PaginationParams` interface of the HUDU client (fields already
coerced through `Number`). -/
structure PaginationParams where
  page : Option JSNum := none
  page_size : Option JSNum := none
deriving DecidableEq

/-- Function `normalizePaginationParams` from the HUDU client module. -/
def normalizePaginationParams (params : PaginationParams) : PaginationParams :=
  { page := params.page.map (fun x => jsMax 1 (jsFloor (jsOrDefault x 1))),
    page_size := params.page_size.map
      (fun x => jsMax 1 (jsMin 100 (jsFloor (jsOrDefault x 25)))) }

/-- Raw arguments of the `get_companies` tool that matter to its numeric
validation (string filters are forwarded untouched). -/
structure GetCompaniesArgs where
  page : Option JSNum := none
  page_size : Option JSNum := none
deriving DecidableEq

/-- The zod check `z.number().min(lo)[.max(hi)].optional()` applied to a
present numeric argument. -/
def zodNumCheck (lo : ℚ) (hi : Option ℚ) (x : JSNum) : Bool :=
  match x with
  | .fin q => decide (lo ≤ q) && (match hi with | some h => decide (q ≤ h) | none => true)
  | .inf => (match hi with | some _ => false | none => true)
  | .ninf => false
  | .nan => false

/-- Outcome of a `get_companies` invocation: either the collaborator is
invoked with the pagination parameters the HUDU client puts on the wire
(after `normalizePaginationParams`), or the handler raises an
`InvalidParams` error naming the offending field. -/
inductive HandlerOutcome where
  | calledWith (params : PaginationParams)
  | invalidParams (field : String)
deriving DecidableEq

/-- Handler `handleCompanyTools` for `name = "get_companies"`: `GetCompaniesSchema.parse`
(`page: z.number().min(1).optional()`, `page_size: z.number().min(1).max(100).optional()`)
followed by `huduClient.getCompanies`, which normalizes the pagination
parameters before issuing the request. A `ZodError` becomes `InvalidParams`. -/
def handleGetCompanies (args : GetCompaniesArgs) : HandlerOutcome :=
  if ¬ (args.page.all (zodNumCheck 1 none)) then .invalidParams ("page")
  else if ¬ (args.page_size.all (zodNumCheck 1 (some 100))) then .invalidParams ("page_size")
  else .calledWith (normalizePaginationParams ⟨args.page, args.page_size⟩)

/-- An asset-password record: the two secret fields plus the remaining
(opaque) properties carried along by the object spread. -/
structure AssetPassword where
  password : String
  otp_secret : Option String
  others : List (String × JValue)

/-- The literal mask string used by the asset-password handler. -/
def maskString : String := ("***MASKED***")

/-- JS truthiness of an optional string (`null`/`undefined` and `""` are
falsy). -/
def jsTruthy : Option String → Bool
  | none => false
  | some s => !s.isEmpty

/-- The per-record masking step of `get_asset_passwords`
(`{...password, password: MASK, otp_secret: password.otp_secret ? MASK : undefined}`). -/
def maskRecord (p : AssetPassword) : AssetPassword :=
  { p with
    password := maskString,
    otp_secret := if jsTruthy p.otp_secret then some maskString else none }

/-- JSON form of an asset-password record as serialized into the reply
(an absent `otp_secret` key models the dropped `undefined` property). -/
def assetPasswordJson (p : AssetPassword) : JValue :=
  .jobj ([(("password"), .jstr p.password)]
    ++ (match p.otp_secret with
        | some s => [(("otp_secret"), .jstr s)]
        | none => [])
    ++ p.others)

/-- Does `pat` occur at the start of `l`? -/
def charsStartWith : List Char → List Char → Bool
  | [], _ => true
  | _ :: _, [] => false
  | a :: as, b :: bs => a == b && charsStartWith as bs

/-- Does `pat` occur anywhere in `l`? -/
def charsContain (pat : List Char) : List Char → Bool
  | [] => pat.isEmpty
  | l@(_ :: rest) => charsStartWith pat l || charsContain pat rest

/-- JS `s.includes(pat)`. -/
def jsIncludes (s pat : String) : Bool := charsContain pat.data s.data

/-- The error message the HUDU client response interceptor builds for an
HTTP failure with a response (`HUDU API Error (status): message`). -/
def clientErrorMessage (status : Nat) (msg : String) : String :=
  ("HUDU API Error (") ++ Nat.repr status ++ ("): ") ++ msg

/-- The substring `get_asset_passwords` tests error messages against. -/
def pat401 : String := ("HUDU API Error (401)")

/-- The MCP error taxonomy of the tool router. -/
inductive McpFailure where
  | invalidParams (msg : String)
  | methodNotFound (msg : String)
  | internalError (msg : String)
deriving DecidableEq

/-- The guidance payload returned when password listing hits a 401. -/
def accessDeniedPayload : JValue :=
  .jobj [(("error"), .jstr ("Access Denied")),
         (("message"), .jstr ("Your API key does not have permission to access password data. This is a security feature in Hudu that can be configured per API key.")),
         (("suggestion"), .jstr (("Contact your Hudu administrator to enable password access for your API key, or use other asset management tools that don") ++ String.mk [Char.ofNat 39] ++ ("t require password permissions."))),
         (("asset_passwords"), .jarr []),
         (("pagination"), .jobj [(("current_page"), .jnum 1), (("per_page"), .jnum 0), (("total_pages"), .jnum 0), (("total_count"), .jnum 0)])]

/-- The successful reply for the 401 case. -/
def accessDeniedReply : McpResponse :=
  { content := [{ type := ("text"), text := jsonStringify accessDeniedPayload }] }

/-- Payload of the successful `get_asset_passwords` reply: records are
masked before serialization. -/
def assetPasswordsOkPayload (records : List AssetPassword) (meta : JValue) : JValue :=
  .jobj [(("asset_passwords"), .jarr ((records.map maskRecord).map assetPasswordJson)),
         (("pagination"), meta),
         (("note"), .jstr ("Passwords are masked for security. Use get_asset_password_details for full access."))]

/-- The successful reply of `get_asset_passwords`. -/
def assetPasswordsOkReply (records : List AssetPassword) (meta : JValue) : McpResponse :=
  { content := [{ type := ("text"), text := jsonStringify (assetPasswordsOkPayload records meta) }] }

/-- Handler `handleAssetTools` for `name = "get_asset_passwords"`: the collaborator
call either yields records (masked and returned) or fails with an error
message; a message containing `pat401` is converted into the successful
guidance reply, every other failure is rethrown and caught by the outer
handler as `InternalError`. -/
def handleGetAssetPasswords
    (result : Except String (List AssetPassword × JValue)) :
    Except McpFailure McpResponse :=
  match result with
  | .ok (records, meta) => .ok (assetPasswordsOkReply records meta)
  | .error emsg =>
      if jsIncludes emsg pat401 then .ok accessDeniedReply
      else .error (.internalError (("Failed to execute get_asset_passwords: ") ++ emsg))

/-! ### Length lemmas for the serializer -/

/-- A string of `n` repetitions of the letter a (used as a generic large
text payload). -/
def repA (n : Nat) : String := String.mk (List.replicate n 'a')

theorem repA_length (n : Nat) : (repA n).length = n := by
  simp [repA, String.length]

theorem escapeChar_a : escapeChar 'a' = ("a") := by decide

theorem escString_replicate_a_length (n : Nat) :
    (escString (List.replicate n 'a')).length = n := by
  induction n with
  | zero => rfl
  | succ k ih =>
      simp [List.replicate_succ, escString, escapeChar_a, String.length_append,
        ih, show (("a") : String).length = 1 from rfl]
      omega

theorem quoteJson_repA_length (n : Nat) : (quoteJson (repA n)).length = n + 2 := by
  simp [quoteJson, repA, String.length_append,
    show (String.mk [Char.ofNat 34]).length = 1 from rfl]
  rw [escString_replicate_a_length]
  omega

theorem quoteJson_length_ge (k : String) : 2 ≤ (quoteJson k).length := by
  simp [quoteJson, String.length_append,
    show (String.mk [Char.ofNat 34]).length = 1 from rfl]

theorem jsonStringify_jstr (s : String) : jsonStringify (.jstr s) = quoteJson s := rfl

theorem lenQ_jstr_repA (n : Nat) : lenQ (.jstr (repA n)) = (n : ℚ) + 2 := by
  simp [lenQ, jsonStringify_jstr, quoteJson_repA_length]

theorem indentStr_length (lvl : Nat) : (indentStr lvl).length = 2 * lvl := by
  simp [indentStr, String.length]

/-- Every entry of a serialized object line costs at least six characters
(indentation, quotes around the key, and the colon separator). -/
theorem serObj_length_ge (l : List (String × JValue)) :
    6 * l.length ≤ (serObj l 1).length := by
  induction l with
  | nil => simp [serObj]
  | cons e rest ih =>
      obtain ⟨k, v⟩ := e
      have hq := quoteJson_length_ge k
      simp only [serObj, String.length_append, indentStr_length, List.length_cons]
      have hs : (2:Nat) = (": ").length := rfl
      omega

/-- A serialized mapping is at least six characters per entry long. -/
theorem jsonStringify_jobj_length_ge (l : List (String × JValue)) :
    6 * l.length ≤ (jsonStringify (.jobj l)).length := by
  cases l with
  | nil => simp [jsonStringify, serVal]
  | cons e rest =>
      have h := serObj_length_ge (e :: rest)
      simp only [jsonStringify, serVal, String.length_append, indentStr_length,
        Nat.zero_add] at *
      omega

/-! ### Lemmas about `setKey` -/

theorem setKey_length_ge (l : List (String × JValue)) (k : String) (v : JValue) :
    l.length ≤ (setKey l k v).length := by
  unfold setKey
  split
  · simp
  · simp

theorem setKey_mem (l : List (String × JValue)) (k : String) (v : JValue) :
    (k, v) ∈ setKey l k v := by
  unfold setKey
  split
  · next h =>
      rcases List.any_eq_true.mp h with ⟨p, hp, hpk⟩
      refine List.mem_map.mpr ⟨p, hp, ?_⟩
      simp [of_decide_eq_true hpk]
  · simp

theorem setKey_getD_of_ne (l : List (String × JValue)) (k : String) (v : JValue)
    (i : Nat) (d : String × JValue) (hi : i < l.length)
    (hk : (l.getD i d).1 ≠ k) : (setKey l k v).getD i d = l.getD i d := by
  rw [List.getD_eq_getElem l d hi] at hk
  unfold setKey
  split
  · have hi2 : i < (l.map fun p => if p.1 = k then (k, v) else p).length := by simpa
    rw [List.getD_eq_getElem _ _ hi2, List.getElem_map, List.getD_eq_getElem l d hi,
      if_neg hk]
  · have hi3 : i < (l ++ [(k, v)]).length := by simp; omega
    rw [List.getD_eq_getElem _ _ hi3, List.getElem_append_left hi,
      List.getD_eq_getElem l d hi]

/-! ### Unfolding lemmas for the truncation recursion -/

theorem trunc_jstr (s : String) (m : ℚ) :
    truncateDataRecursively (.jstr s) m = .jstr s := by
  simp [truncateDataRecursively]

theorem trunc_jarr (l : List JValue) (m : ℚ) :
    truncateDataRecursively (.jarr l) m = .jarr (truncArr l 0 l.length 0 m) := by
  simp [truncateDataRecursively]

theorem trunc_jobj (l : List (String × JValue)) (m : ℚ) :
    truncateDataRecursively (.jobj l) m
      = if (truncObj l 0 m).2 then
          .jobj (setKey (setKey (truncObj l 0 m).1 ("_truncated") (.jbool true))
            ("_message") (.jstr objTruncMsg))
        else .jobj (truncObj l 0 m).1 := by
  simp [truncateDataRecursively]

/-! ### Claim C3: sequence truncation marker -/

/-- Accumulated serialized size of the first `k` elements of a sequence,
exactly as the array loop accumulates `currentSize`. -/
def accLen (l : List JValue) (k : Nat) : ℚ := ((l.take k).map lenQ).sum

theorem accLen_zero (l : List JValue) : accLen l 0 = 0 := by simp [accLen]

theorem accLen_cons_succ (x : JValue) (xs : List JValue) (j : Nat) :
    accLen (x :: xs) (j + 1) = lenQ x + accLen xs j := by
  simp [accLen]

theorem truncArr_spec (l : List JValue) (k : Nat) :
    ∀ (i total : Nat) (cur m : ℚ),
    k < l.length →
    (∀ j, j < k → cur + accLen l j + lenQ (l.getD j .jnull) ≤ m) →
    cur + accLen l k + lenQ (l.getD k .jnull) > m →
    truncArr l i total cur m
      = (l.take k).map (fun v => truncateDataRecursively v (m / 10))
          ++ [arrMarker (i + k) total] := by
  induction l generalizing k with
  | nil => intro i total cur m hk _ _; exact absurd hk (by simp)
  | cons x xs ih =>
      intro i total cur m hk hbelow habove
      cases k with
      | zero =>
          rw [accLen_zero] at habove
          simp only [List.getD_cons_zero, add_zero] at habove
          simp [truncArr, if_pos habove]
      | succ r =>
          have h0 := hbelow 0 (Nat.succ_pos r)
          rw [accLen_zero] at h0
          simp only [List.getD_cons_zero, add_zero] at h0
          rw [truncArr, if_neg (not_lt.mpr h0)]
          have hidx : i + (r + 1) = (i + 1) + r := by omega
          rw [hidx]
          rw [ih r (i + 1) total (cur + lenQ x) m (by simpa using hk)
            (fun j hj => by
              have := hbelow (j + 1) (by omega)
              rw [accLen_cons_succ] at this
              simp only [List.getD_cons_succ] at this
              linarith)
            (by
              have := habove
              rw [accLen_cons_succ] at this
              simp only [List.getD_cons_succ] at this
              linarith)]
          simp

/-- Claim C3: when element `k` of a sequence is the first whose accumulated
serialized size exceeds the budget, the truncated sequence is the first `k`
elements (each recursively bounded with one tenth of the budget, in order)
followed by exactly one synthetic marker whose remaining-items field is
`N - k`. -/
theorem c3_sequence_marker (l : List JValue) (m : ℚ) (k : Nat)
    (hk : k < l.length)
    (hbelow : ∀ j, j < k → accLen l j + lenQ (l.getD j .jnull) ≤ m)
    (habove : accLen l k + lenQ (l.getD k .jnull) > m) :
    truncateDataRecursively (.jarr l) m
      = .jarr ((l.take k).map (fun v => truncateDataRecursively v (m / 10))
          ++ [arrMarker k l.length]) := by
  rw [trunc_jarr]
  rw [truncArr_spec l k 0 l.length 0 m hk
    (fun j hj => by simpa using hbelow j hj) (by simpa using habove)]
  simp

/-- Witness for C3 at the concrete sequence `[1, 2, 3]` with budget 1:
element 1 is the first to exceed the budget, so one real element remains,
the marker reports two remaining items. -/
theorem c3_sequence_marker_witness :
    truncateDataRecursively (.jarr [.jnum 1, .jnum 2, .jnum 3]) 1
      = .jarr (([JValue.jnum 1, .jnum 2, .jnum 3].take 1).map
          (fun v => truncateDataRecursively v (1 / 10)) ++ [arrMarker 1 3]) :=
  c3_sequence_marker [.jnum 1, .jnum 2, .jnum 3] 1 1 (by decide)
    (by
      intro j hj
      interval_cases j
      simp [accLen, lenQ, jsonStringify, serVal,
        show ((toString (1 : Int)).length) = 1 from rfl])
    (by
      simp [accLen, lenQ, jsonStringify, serVal,
        show ((toString (1 : Int)).length) = 1 from rfl,
        show ((toString (2 : Int)).length) = 1 from rfl])

/-! ### Claim C2: the long-string cap -/

/-- The transformation the object loop applies to a retained entry: string
values longer than 10,000 characters are capped, every other value is
recursively truncated with a tenth of the budget. -/
def entryTransform (m : ℚ) : String × JValue → String × JValue
  | (k, v) =>
      (k, match v with
          | .jstr s =>
              if s.length > 10000 then .jstr (jsSubstring s 10000 ++ truncSuffix)
              else truncateDataRecursively (.jstr s) (m / 10)
          | w => truncateDataRecursively w (m / 10))

theorem truncObj_cons (k : String) (v : JValue) (rest : List (String × JValue))
    (cur m : ℚ) :
    truncObj ((k, v) :: rest) cur m
      = if cur + lenQ v > m then ([], true)
        else (entryTransform m (k, v) :: (truncObj rest (cur + lenQ v) m).1,
              (truncObj rest (cur + lenQ v) m).2) := by
  cases v <;> simp [truncObj, entryTransform]

theorem truncObj_retained_le (l : List (String × JValue)) :
    ∀ (cur m : ℚ), (truncObj l cur m).1.length ≤ l.length := by
  induction l with
  | nil => intro cur m; simp [truncObj]
  | cons e rest ih =>
      intro cur m
      obtain ⟨k, v⟩ := e
      rw [truncObj_cons]
      split
      · simp
      · simpa using ih (cur + lenQ v) m

/-- The retained entries of the object loop are exactly the transformed
prefix of the input entries. -/
theorem truncObj_retained (l : List (String × JValue)) :
    ∀ (cur m : ℚ),
    (truncObj l cur m).1
      = (l.take (truncObj l cur m).1.length).map (entryTransform m) := by
  induction l with
  | nil => intro cur m; simp [truncObj]
  | cons e rest ih =>
      intro cur m
      obtain ⟨k, v⟩ := e
      rw [truncObj_cons]
      split
      · simp
      · simp only [List.length_cons, List.take_succ_cons, List.map_cons,
          List.cons.injEq]
        exact ⟨trivial, ih (cur + lenQ v) m⟩

/-- Claim C2 (amended): a string longer than 10,000 characters occurring as
a mapping value whose entry the object loop retains (and whose key is not
one of the synthetic marker keys) is replaced, in position, by its first
10,000 characters with the literal truncation suffix appended. -/
theorem c2_mapping_string_cap (l : List (String × JValue)) (m : ℚ) (i : Nat)
    (k s : String)
    (hi : i < (truncObj l 0 m).1.length)
    (he : l.getD i (("", .jnull)) = (k, .jstr s))
    (hs : s.length > 10000)
    (hk1 : k ≠ ("_truncated")) (hk2 : k ≠ ("_message")) :
    ∃ out, truncateDataRecursively (.jobj l) m = .jobj out ∧
      out.getD i (("", .jnull)) = (k, .jstr (jsSubstring s 10000 ++ truncSuffix)) := by
  have hle := truncObj_retained_le l 0 m
  have hil : i < l.length := lt_of_lt_of_le hi hle
  have hgetD : (truncObj l 0 m).1.getD i (("", .jnull))
      = (k, .jstr (jsSubstring s 10000 ++ truncSuffix)) := by
    rw [truncObj_retained l 0 m]
    have hi2 : i < ((l.take (truncObj l 0 m).1.length).map (entryTransform m)).length := by
      simp only [List.length_map, List.length_take]
      omega
    rw [List.getD_eq_getElem _ _ hi2, List.getElem_map, List.getElem_take,
      ← List.getD_eq_getElem l (("", .jnull)) hil, he]
    simp [entryTransform, hs]
  rw [trunc_jobj]
  split
  · refine ⟨_, rfl, ?_⟩
    have hi3 : i < (setKey (truncObj l 0 m).1 ("_truncated") (.jbool true)).length :=
      lt_of_lt_of_le hi (setKey_length_ge _ _ _)
    rw [setKey_getD_of_ne _ _ _ _ _ hi3
        (by rw [setKey_getD_of_ne _ _ _ _ _ hi (by rw [hgetD]; exact hk1), hgetD]
            exact hk2),
      setKey_getD_of_ne _ _ _ _ _ hi (by rw [hgetD]; exact hk1), hgetD]
  · exact ⟨_, rfl, hgetD⟩

/-- Witness for the amended C2: a single retained entry holding a
10,001-character string is capped at 10,000 characters plus the suffix. -/
theorem c2_mapping_string_cap_witness :
    ∃ out, truncateDataRecursively (.jobj [(("body"), .jstr (repA 10001))]) 20000
        = .jobj out ∧
      out.getD 0 (("", .jnull))
        = (("body"), .jstr (jsSubstring (repA 10001) 10000 ++ truncSuffix)) :=
  c2_mapping_string_cap [(("body"), .jstr (repA 10001))] 20000 0 ("body") (repA 10001)
    (by
      rw [truncObj_cons, if_neg (by rw [lenQ_jstr_repA]; norm_num)]
      simp)
    (by simp)
    (by rw [repA_length]; omega)
    (by decide) (by decide)

/-- Claim C2 as frozen is false: a string of length 10,001 occurring as a
sequence element is returned verbatim by the recursive truncation step, not
capped, even though the budget is ample. -/
theorem c2_counterexample :
    truncateDataRecursively (.jarr [.jstr (repA 10001)]) 20000
        = .jarr [.jstr (repA 10001)]
      ∧ (repA 10001).length > 10000
      ∧ JValue.jstr (repA 10001)
          ≠ .jstr (jsSubstring (repA 10001) 10000 ++ truncSuffix) := by
  refine ⟨?_, by rw [repA_length]; omega, ?_⟩
  · rw [trunc_jarr]
    simp only [List.length_cons, List.length_nil]
    rw [truncArr, if_neg (by rw [zero_add, lenQ_jstr_repA]; norm_num)]
    rw [truncArr, trunc_jstr]
  · intro h
    have hlen := congrArg (fun v => match v with | JValue.jstr s => s.length | _ => 0) h
    simp only at hlen
    rw [repA_length, String.length_append] at hlen
    have h1 : (jsSubstring (repA 10001) 10000).length = 10000 := by
      simp [jsSubstring, String.length_mk, List.length_take, repA_length]
    have h2 : truncSuffix.length = 15 := rfl
    omega

/-! ### Claim C1: behavior beyond the size ceiling -/

theorem truncateResponse_originalSize (v : JValue) :
    (truncateResponse v).originalSize = (jsonStringify v).length := by
  simp only [truncateResponse]
  split <;> rfl

/-- When truncation fires, the reply data is the spread of the truncated
payload with `_truncation_info` attached; its serialized length is at least
six characters per spread entry. -/
theorem truncateResponse_data_len_ge (v : JValue)
    (h : (jsonStringify v).length > MAX_RESPONSE_SIZE) :
    6 * (jsSpread (truncateDataRecursively v ((MAX_RESPONSE_SIZE : ℚ) * 8 / 10))).length
      ≤ (jsonStringify (truncateResponse v).data).length := by
  simp only [truncateResponse]
  rw [if_neg (by omega)]
  dsimp only
  exact le_trans (Nat.mul_le_mul_left 6 (setKey_length_ge _ _ _))
    (jsonStringify_jobj_length_ge _)

/-- Claim C1 as frozen is false: for a 3,000,001-character scalar string the
original serialization has 3,000,003 characters (over the ceiling), but the
output of `truncateResponse` spreads the string into an index-keyed mapping
whose serialization is strictly larger than the original, not smaller. -/
theorem c1_counterexample :
    (truncateResponse (.jstr (repA 3000001))).originalSize > MAX_RESPONSE_SIZE
    ∧ ¬ ((jsonStringify (truncateResponse (.jstr (repA 3000001))).data).length
          < (truncateResponse (.jstr (repA 3000001))).originalSize) := by
  have horig : (truncateResponse (.jstr (repA 3000001))).originalSize = 3000003 := by
    rw [truncateResponse_originalSize, jsonStringify_jstr, quoteJson_repA_length]
  have hgt : (jsonStringify (.jstr (repA 3000001))).length > MAX_RESPONSE_SIZE := by
    rw [jsonStringify_jstr, quoteJson_repA_length]
    norm_num [MAX_RESPONSE_SIZE]
  have hspread :
      (jsSpread (truncateDataRecursively (.jstr (repA 3000001))
        ((MAX_RESPONSE_SIZE : ℚ) * 8 / 10))).length = 3000001 := by
    rw [trunc_jstr]
    simp only [jsSpread, List.length_map, List.enum_length]
    rw [show (repA 3000001).data = List.replicate 3000001 'a' from rfl,
      List.length_replicate]
  have hlen := truncateResponse_data_len_ge (.jstr (repA 3000001)) hgt
  rw [hspread] at hlen
  constructor
  · rw [horig]; norm_num [MAX_RESPONSE_SIZE]
  · rw [horig]; omega

/-- Claim C1 (amended): past the ceiling, `truncateResponse` always reports
`truncated = true` with the original size, and its data is a structurally
valid mapping carrying the `_truncation_info` entry (the serialized size,
however, is not always smaller than the original). -/
theorem c1_truncation_shape (v : JValue)
    (h : (jsonStringify v).length > MAX_RESPONSE_SIZE) :
    (truncateResponse v).truncated = true
    ∧ (truncateResponse v).originalSize = (jsonStringify v).length
    ∧ ∃ out, (truncateResponse v).data = .jobj out
        ∧ (("_truncation_info"),
            truncationInfo (jsonStringify v).length
              (jsonStringify (truncateDataRecursively v
                ((MAX_RESPONSE_SIZE : ℚ) * 8 / 10))).length) ∈ out := by
  simp only [truncateResponse]
  rw [if_neg (by omega)]
  exact ⟨rfl, rfl, _, rfl, setKey_mem _ _ _⟩

/-- Witness for the amended C1 at the over-ceiling scalar string input. -/
theorem c1_truncation_shape_witness :
    (truncateResponse (.jstr (repA 3000001))).truncated = true
    ∧ (truncateResponse (.jstr (repA 3000001))).originalSize
        = (jsonStringify (.jstr (repA 3000001))).length
    ∧ ∃ out, (truncateResponse (.jstr (repA 3000001))).data = .jobj out
        ∧ (("_truncation_info"),
            truncationInfo (jsonStringify (.jstr (repA 3000001))).length
              (jsonStringify (truncateDataRecursively (.jstr (repA 3000001))
                ((MAX_RESPONSE_SIZE : ℚ) * 8 / 10))).length) ∈ out :=
  c1_truncation_shape (.jstr (repA 3000001))
    (by rw [jsonStringify_jstr, quoteJson_repA_length]; norm_num [MAX_RESPONSE_SIZE])

/-! ### Claim C4: payloads within the ceiling pass through unchanged -/

/-- Claim C4: an input whose pretty-printed serialization is at most the
ceiling is returned bit-identically with `truncated = false`. -/
theorem c4_under_ceiling_identity (v : JValue)
    (h : (jsonStringify v).length ≤ MAX_RESPONSE_SIZE) :
    truncateResponse v
      = { data := v, truncated := false, originalSize := (jsonStringify v).length } := by
  simp only [truncateResponse]
  rw [if_pos h]

/-- Witness for C4 at the concrete value `null` (serialized as four
characters). -/
theorem c4_under_ceiling_identity_witness :
    truncateResponse .jnull
      = { data := .jnull, truncated := false,
          originalSize := (jsonStringify .jnull).length } :=
  c4_under_ceiling_identity .jnull (by decide)

/-! ### Claim C10: totality of the truncation recursion -/

/-- Claim C10: `truncateDataRecursively` terminates on every finite value
and budget — the mutual recursion is accepted with the structural `sizeOf`
measure (each recursive call is on a sequence element or a mapping value),
so the function is total and an output value always exists. -/
theorem c10_truncation_total (v : JValue) (m : ℚ) :
    ∃ r, truncateDataRecursively v m = r := ⟨_, rfl⟩

/-! ### Claim C6: `get_companies` with `page_size = 250` -/

/-- Claim C6 as frozen is false: `page_size: 250` fails the zod bound
`z.number().min(1).max(100)` and the handler raises `InvalidParams`; the
collaborator is never invoked, with `page_size = 100` or otherwise. -/
theorem c6_counterexample :
    handleGetCompanies { page := none, page_size := some (.fin 250) }
        = .invalidParams ("page_size")
    ∧ handleGetCompanies { page := none, page_size := some (.fin 250) }
        ≠ .calledWith { page := none, page_size := some (.fin 100) } := by
  constructor
  · rfl
  · decide

/-- Claim C6 (amended): invoking `get_companies` with `page_size = 250`
yields an `InvalidParams` error naming `page_size`; the collaborator list
operation is not invoked (clamping in `normalizePaginationParams` only ever
sees values the schema already restricted to [1, 100]). -/
theorem c6_rejected_not_clamped :
    handleGetCompanies { page := none, page_size := some (.fin 250) }
      = .invalidParams ("page_size") := rfl

/-! ### Claim C7: the pagination clamp -/

theorem clamp_page_size_spec (y : JSNum) :
    ∃ n : ℤ, jsMax 1 (jsMin 100 (jsFloor (jsOrDefault y 25))) = .fin (n : ℚ)
      ∧ 1 ≤ n ∧ n ≤ 100 := by
  cases y with
  | fin q =>
      by_cases h0 : q = 0
      · refine ⟨25, ?_, by norm_num, by norm_num⟩
        simp [jsOrDefault, h0, jsFloor, jsMin, jsMax]
        all_goals norm_num
      · refine ⟨max 1 (min 100 ⌊q⌋), ?_, le_max_left _ _,
          max_le (by norm_num) (min_le_left _ _)⟩
        simp only [jsOrDefault, if_neg h0, jsFloor, jsMin, jsMax, JSNum.fin.injEq]
        push_cast
        rfl
  | nan =>
      refine ⟨25, ?_, by norm_num, by norm_num⟩
      simp [jsOrDefault, jsFloor, jsMin, jsMax]
      all_goals norm_num
  | inf =>
      refine ⟨100, ?_, by norm_num, by norm_num⟩
      simp [jsOrDefault, jsFloor, jsMin, jsMax]
  | ninf =>
      exact ⟨1, by simp [jsOrDefault, jsFloor, jsMin, jsMax], by norm_num, by norm_num⟩

theorem clamp_page_spec (y : JSNum) :
    jsMax 1 (jsFloor (jsOrDefault y 1)) = .inf
    ∨ ∃ n : ℤ, jsMax 1 (jsFloor (jsOrDefault y 1)) = .fin (n : ℚ) ∧ 1 ≤ n := by
  cases y with
  | fin q =>
      by_cases h0 : q = 0
      · refine .inr ⟨1, ?_, le_refl 1⟩
        simp [jsOrDefault, h0, jsFloor, jsMax]
      · refine .inr ⟨max 1 ⌊q⌋, ?_, le_max_left _ _⟩
        simp only [jsOrDefault, if_neg h0, jsFloor, jsMax, JSNum.fin.injEq]
        push_cast
        rfl
  | nan =>
      refine .inr ⟨1, ?_, le_refl 1⟩
      simp [jsOrDefault, jsFloor, jsMax]
  | inf => exact .inl (by simp [jsOrDefault, jsFloor, jsMax])
  | ninf => exact .inr ⟨1, by simp [jsOrDefault, jsFloor, jsMax], le_refl 1⟩

/-- Claim C7: whenever `page_size` is present in the input, the normalized
`page_size` is an integer in [1, 100]; whenever `page` is present, the
normalized `page` is at least 1 (the JS value `Infinity`, which compares
`≥ 1`, is reported explicitly). -/
theorem c7_pagination_clamp (p : PaginationParams) (x : JSNum) :
    ((normalizePaginationParams p).page_size = some x →
      ∃ n : ℤ, x = .fin (n : ℚ) ∧ 1 ≤ n ∧ n ≤ 100)
    ∧ ((normalizePaginationParams p).page = some x →
      x = .inf ∨ ∃ n : ℤ, x = .fin (n : ℚ) ∧ 1 ≤ n) := by
  constructor
  · intro h
    cases hps : p.page_size with
    | none => rw [normalizePaginationParams, hps] at h; simp at h
    | some y =>
        rw [normalizePaginationParams, hps] at h
        simp only [Option.map_some', Option.some.injEq] at h
        rcases clamp_page_size_spec y with ⟨n, hn, h1, h2⟩
        exact ⟨n, h ▸ hn, h1, h2⟩
  · intro h
    cases hps : p.page with
    | none => rw [normalizePaginationParams, hps] at h; simp at h
    | some y =>
        rw [normalizePaginationParams, hps] at h
        simp only [Option.map_some', Option.some.injEq] at h
        rcases clamp_page_spec y with hinf | ⟨n, hn, h1⟩
        · exact .inl (h ▸ hinf)
        · exact .inr ⟨n, h ▸ hn, h1⟩

/-- Witness for C7: a requested `page_size` of 250 is clamped to 100 and a
requested `page` of 0 is lifted to 1. -/
theorem c7_pagination_clamp_witness :
    (∃ n : ℤ, JSNum.fin 100 = .fin (n : ℚ) ∧ 1 ≤ n ∧ n ≤ 100)
    ∧ (JSNum.fin 1 = .inf ∨ ∃ n : ℤ, JSNum.fin 1 = .fin (n : ℚ) ∧ 1 ≤ n) :=
  ⟨(c7_pagination_clamp ⟨some (.fin 0), some (.fin 250)⟩ (.fin 100)).1 (by
      show some (jsMax 1 (jsMin 100 (jsFloor (jsOrDefault (.fin 250) 25)))) = _
      norm_num [jsOrDefault, jsFloor, jsMin, jsMax]),
   (c7_pagination_clamp ⟨some (.fin 0), some (.fin 250)⟩ (.fin 1)).2 (by
      show some (jsMax 1 (jsFloor (jsOrDefault (.fin 0) 1))) = _
      norm_num [jsOrDefault, jsFloor, jsMax])⟩

/-! ### Claim C8: secret masking in `get_asset_passwords` -/

/-- Claim C8: every record in the list serialized into the
`get_asset_passwords` reply has `password` equal to the literal mask string
and `otp_secret` either absent or equal to the mask string, so no true
secret value remains in those fields. -/
theorem c8_secret_masking (records : List AssetPassword) (r : AssetPassword)
    (hr : r ∈ records.map maskRecord) :
    r.password = maskString
    ∧ (r.otp_secret = none ∨ r.otp_secret = some maskString) := by
  rcases List.mem_map.mp hr with ⟨p, _, rfl⟩
  refine ⟨rfl, ?_⟩
  cases h : jsTruthy p.otp_secret <;> simp [maskRecord, h]

/-- Witness for C8: a record with a real password and OTP secret is fully
masked. -/
theorem c8_secret_masking_witness :
    (maskRecord { password := ("hunter2"), otp_secret := some ("JBSWY3DP"),
                  others := [] }).password = maskString
    ∧ ((maskRecord { password := ("hunter2"), otp_secret := some ("JBSWY3DP"),
                     others := [] }).otp_secret = none
       ∨ (maskRecord { password := ("hunter2"), otp_secret := some ("JBSWY3DP"),
                       others := [] }).otp_secret = some maskString) :=
  c8_secret_masking
    [{ password := ("hunter2"), otp_secret := some ("JBSWY3DP"), others := [] }]
    _ (by simp)

/-! ### Claim C9: 401 translation on password listing -/

theorem charsStartWith_self_append (a b : List Char) :
    charsStartWith a (a ++ b) = true := by
  induction a with
  | nil => rfl
  | cons c cs ih => simp [charsStartWith, ih]

theorem charsContain_nil_pat (l : List Char) : charsContain [] l = true := by
  cases l <;> simp [charsContain, charsStartWith]

theorem jsIncludes_self_append (a b : String) : jsIncludes (a ++ b) a = true := by
  unfold jsIncludes
  rw [String.data_append]
  cases h : a.data with
  | nil => exact charsContain_nil_pat _
  | cons c cs =>
      have hsw := charsStartWith_self_append (c :: cs) b.data
      simp only [List.cons_append] at hsw
      simp [charsContain, hsw]

theorem c9_401_includes (msg : String) :
    jsIncludes (clientErrorMessage 401 msg) pat401 = true := by
  have hsplit : clientErrorMessage 401 msg = pat401 ++ ((": ") ++ msg) := by
    show ("HUDU API Error (") ++ Nat.repr 401 ++ ("): ") ++ msg = _
    rw [show ("HUDU API Error (") ++ Nat.repr 401 ++ ("): ")
        = pat401 ++ (": ") from rfl]
    exact String.append_assoc ..
  rw [hsplit]
  exact jsIncludes_self_append pat401 ((": ") ++ msg)

/-- Claim C9 (amended): a collaborator failure carrying an HTTP 401 is
converted into a successful reply with an empty password list and guidance;
a failure whose message does not contain the 401 marker substring
propagates as `InternalError`. (The code matches on the substring, so a
non-401 failure whose message happens to contain the marker is also
converted — see the counterexample.) -/
theorem c9_auth_translation (status : Nat) (msg : String) :
    (status = 401 →
      handleGetAssetPasswords (.error (clientErrorMessage status msg))
        = .ok accessDeniedReply)
    ∧ (jsIncludes (clientErrorMessage status msg) pat401 = false →
      handleGetAssetPasswords (.error (clientErrorMessage status msg))
        = .error (.internalError (("Failed to execute get_asset_passwords: ")
            ++ clientErrorMessage status msg)))
    ∧ objLookup accessDeniedPayload ("asset_passwords") = some (.jarr []) := by
  refine ⟨?_, ?_, rfl⟩
  · intro h
    subst h
    simp [handleGetAssetPasswords, c9_401_includes]
  · intro hfalse
    simp [handleGetAssetPasswords, hfalse]

/-- Witness for the amended C9: a 401 yields the guidance reply, a plain 500
propagates as an internal error. -/
theorem c9_auth_translation_witness :
    handleGetAssetPasswords (.error (clientErrorMessage 401 ("Unauthorized")))
        = .ok accessDeniedReply
    ∧ handleGetAssetPasswords (.error (clientErrorMessage 500 ("boom")))
        = .error (.internalError (("Failed to execute get_asset_passwords: ")
            ++ clientErrorMessage 500 ("boom"))) :=
  ⟨(c9_auth_translation 401 ("Unauthorized")).1 rfl,
   (c9_auth_translation 500 ("boom")).2.1 (by decide)⟩

/-- Claim C9 as frozen is false in its second half: a 500 failure whose
message embeds the literal marker text is also converted into the
successful guidance reply instead of propagating as an error. -/
theorem c9_counterexample :
    handleGetAssetPasswords
        (.error (clientErrorMessage 500 ("HUDU API Error (401)")))
      = .ok accessDeniedReply
    ∧ (500 : Nat) ≠ 401 := ⟨rfl, by decide⟩

/-! ### Claim C5: the truncation warning never reaches the reply -/

/-- A payload over the ceiling with a `summary` field: the second entry is a
3,000,001-character string. -/
def c5Input : JValue :=
  .jobj [(("summary"), .jstr ("s")), (("big"), .jstr (repA 3000001))]

theorem c5_origLen : (jsonStringify c5Input).length = 3000034 := by
  simp only [c5Input, jsonStringify, serVal, serObj, List.isEmpty_cons,
    List.isEmpty_nil, Bool.false_eq_true, if_false, if_true,
    String.length_append, indentStr_length]
  rw [quoteJson_repA_length]
  norm_num [show (quoteJson ("summary")).length = 9 from rfl,
    show (quoteJson ("big")).length = 5 from rfl,
    show (quoteJson ("s")).length = 3 from rfl,
    show (("\x7b\n") : String).length = 2 from rfl,
    show ((": ") : String).length = 2 from rfl,
    show ((",\n") : String).length = 2 from rfl,
    show (("\n") : String).length = 1 from rfl,
    show (("\x7d") : String).length = 1 from rfl,
    show (("") : String).length = 0 from rfl]

theorem c5_lenQ_s : lenQ (.jstr ("s")) = 3 := by
  norm_num [lenQ, jsonStringify_jstr, show (quoteJson ("s")).length = 3 from rfl]

theorem c5_trunc :
    truncateDataRecursively c5Input ((MAX_RESPONSE_SIZE : ℚ) * 8 / 10)
      = .jobj [(("summary"), .jstr ("s")), (("_truncated"), .jbool true),
               (("_message"), .jstr objTruncMsg)] := by
  have hobj : truncObj [(("summary"), .jstr ("s")), (("big"), .jstr (repA 3000001))]
      0 ((MAX_RESPONSE_SIZE : ℚ) * 8 / 10)
      = ([(("summary"), .jstr ("s"))], true) := by
    rw [truncObj_cons,
      if_neg (by rw [c5_lenQ_s]; norm_num [MAX_RESPONSE_SIZE]),
      truncObj_cons,
      if_pos (by
        rw [c5_lenQ_s, lenQ_jstr_repA]
        norm_num [MAX_RESPONSE_SIZE])]
    simp [entryTransform, trunc_jstr, show (("s") : String).length = 1 from rfl]
  rw [show c5Input
      = .jobj [(("summary"), .jstr ("s")), (("big"), .jstr (repA 3000001))] from rfl,
    trunc_jobj, hobj]
  rfl

/-- The reply `createMcpResponse` actually returns at the C5 input: the
serialization of the unmutated truncated data. -/
def c5ActualReply : McpResponse :=
  { content := [{ type := ("text"), text := jsonStringify (truncateResponse c5Input).data }] }

/-- Claim C5 concerns a genuine slip in `createMcpResponse`: the reply text
is serialized before the warning is appended to `responseData.summary`, so
the reply's data still carries the original summary and the warning is
absent. At the concrete over-ceiling input the truncation fires, the reply
text is exactly the serialization of the unmutated truncated data, and the
`summary` entry inside that data is still the bare original string. -/
theorem c5_warning_dead_code :
    (truncateResponse c5Input).truncated = true
    ∧ createMcpResponse c5Input (some ("Found 2 companies")) = c5ActualReply
    ∧ objLookup (truncateResponse c5Input).data ("summary") = some (.jstr ("s")) := by
  have hover : ¬ (jsonStringify c5Input).length ≤ MAX_RESPONSE_SIZE := by
    rw [c5_origLen]
    norm_num [MAX_RESPONSE_SIZE]
  refine ⟨?_, rfl, ?_⟩
  · simp only [truncateResponse]
    rw [if_neg hover]
  · simp only [truncateResponse]
    rw [if_neg hover]
    dsimp only
    rw [c5_trunc]
    rfl
